import Mathlib

/-!
Shallow embedding of `scripts/earthly_name_consistency.py`.

The script walks a tree of module directories.  For each directory it parses
the `Cargo.toml` (via `tomllib.loads`), extracts the declared cdylib name
(`cargo_name`), extracts the first artifact name matched by the regex
`(?:--out=|SAVE ARTIFACT )([A-Za-z0-9_-]+)\.wasm` in the sibling `Earthfile`
(`earthly_name`), normalizes both (`normalize`), and collects a mismatch line
when both names are present and their normalized forms differ.  At the end it
prints the collected lines joined by newlines and exits 1 when any exist,
otherwise exits 0.  An uncaught exception (TOMLDecodeError, KeyError, ...)
aborts the run with exit status 1 and nothing on standard output.

The embedding models a run as a list of directories, one per discovered
`Cargo.toml`, in discovery order.  A directory carries the parse outcome of
its manifest and the optional text of its `Earthfile`.
-/

namespace NameCheck

/-- A parsed TOML value as produced by `tomllib.loads`, restricted to the
shapes the script touches: strings, arrays and tables.  Other TOML scalar
types (integers, booleans, dates) appear in none of the fields the script
reads and are not modelled. -/
inductive Toml where
  | str (s : String)
  | list (xs : List Toml)
  | table (kvs : List (String × Toml))

/-- Exceptions the script can raise.  Any of them is uncaught and aborts the
whole run: `tomlDecodeError` from `tomllib.loads` on malformed TOML,
`keyError` from `data["package"]["name"]` when a key is missing, `typeError`
when `data["package"]` is not a table, and `attributeError` when a value of
the wrong type receives `.get` or `.replace`. -/
inductive RunErr where
  | tomlDecodeError
  | keyError
  | typeError
  | attributeError
deriving DecidableEq

/-- Content of one `Cargo.toml`, abstracted by its `tomllib.loads` outcome:
`malformed` stands for text on which `tomllib.loads` raises
`TOMLDecodeError`; `parsed data` stands for text that parses to the
top-level table `data`.  (TOML concrete syntax itself is not modelled.) -/
inductive ManifestSrc where
  | malformed
  | parsed (data : List (String × Toml))

/-- Python `dict` lookup returning `None` on a missing key (`d.get(k)`).
`tomllib` rejects duplicate keys, so first-match lookup is exact. -/
def tableGet (kvs : List (String × Toml)) (k : String) : Option Toml :=
  match kvs.find? (fun kv => kv.fst == k) with
  | some kv => some kv.snd
  | none => none

/-- Python truthiness of a TOML value: empty string, empty list and empty
dict are falsy. -/
def truthy : Toml → Bool
  | .str s => !(s == "")
  | .list xs => !xs.isEmpty
  | .table kvs => !kvs.isEmpty

/-- Python `needle in hay` for two strings: substring containment. -/
def pySubstr (needle : List Char) : List Char → Bool
  | [] => needle.isEmpty
  | c :: t => needle.isPrefixOf (c :: t) || pySubstr needle t

/-- Python `needle in v` for a string `needle` against a TOML value:
membership by `==` in a list (a string equals no non-string), substring test
in a string, key membership in a table. -/
def pyIn (needle : String) : Toml → Bool
  | .str s => pySubstr needle.data s.data
  | .list xs => xs.any fun v => match v with | .str s => s == needle | _ => false
  | .table kvs => kvs.any fun kv => kv.fst == needle

/-- The expression `data["package"]["name"]` (line 41): `KeyError` when
`"package"` or `"name"` is missing, `TypeError` when `data["package"]` is
not a table (string and list indices must be integers/slices). -/
def packageNameField (data : List (String × Toml)) : Except RunErr Toml :=
  match tableGet data "package" with
  | none => .error .keyError
  | some (.table pkg) =>
    match tableGet pkg "name" with
    | some v => .ok v
    | none => .error .keyError
  | some _ => .error .typeError

/-- Lines 34-41, `cargo_name`: return the cdylib name declared in
`Cargo.toml`, if any.

    data = tomllib.loads(path.read_text())
    lib = data.get("lib", {})
    if "cdylib" not in lib.get("crate-type", []):
        return None
    return lib.get("name") or data["package"]["name"]

A non-table `lib` value makes `lib.get` raise `AttributeError`.  The `or`
falls through to the package name exactly when `lib.get("name")` is falsy
(missing, or present with a falsy value such as the empty string). -/
def cargo_name (m : ManifestSrc) : Except RunErr (Option Toml) :=
  match m with
  | .malformed => .error .tomlDecodeError
  | .parsed data =>
    match (tableGet data "lib").getD (.table []) with
    | .table lib =>
      if pyIn "cdylib" ((tableGet lib "crate-type").getD (.list [])) then
        match tableGet lib "name" with
        | some v => if truthy v then .ok (some v) else (packageNameField data).map some
        | none => (packageNameField data).map some
      else .ok none
    | _ => .error .attributeError

/-- Character class `[A-Za-z0-9_-]` of `EARTHLY_RE` (line 22). -/
def isNameChar (c : Char) : Bool :=
  decide (('A' ≤ c ∧ c ≤ 'Z') ∨ ('a' ≤ c ∧ c ≤ 'z') ∨ ('0' ≤ c ∧ c ≤ '9') ∨ c = '_' ∨ c = '-')

/-- Continuation of `EARTHLY_RE` after one of the two literal alternatives:
`([A-Za-z0-9_-]+)\.wasm`.  The greedy class run must be non-empty and, since
`.` is not a class character, backtracking cannot shorten it: a match exists
exactly when the maximal run is non-empty and is followed by the literal
`.wasm`.  Returns the captured group. -/
def matchName (cs : List Char) : Option String :=
  let run := cs.takeWhile isNameChar
  if run.isEmpty then none
  else if ".wasm".data.isPrefixOf (cs.drop run.length) then some (String.mk run) else none

/-- A match of `EARTHLY_RE` anchored at the head of `cs`: the alternation
`(?:--out=|SAVE ARTIFACT )` (the two literals start with distinct
characters, so at most one applies) followed by `([A-Za-z0-9_-]+)\.wasm`. -/
def matchAt (cs : List Char) : Option String :=
  if "--out=".data.isPrefixOf cs then matchName (cs.drop 6)
  else if "SAVE ARTIFACT ".data.isPrefixOf cs then matchName (cs.drop 14)
  else none

/-- `re.search` of `EARTHLY_RE`: try every start position from the left and
return the captured group of the first position that matches. -/
def searchFirst : List Char → Option String
  | [] => none
  | c :: rest =>
    match matchAt (c :: rest) with
    | some s => some s
    | none => searchFirst rest

/-- `EARTHLY_RE.search(text)` followed by `match.group(1)` as an optional
string (lines 22 and 30-31). -/
def EARTHLY_RE_search (text : String) : Option String :=
  searchFirst text.data

/-- Lines 25-31, `earthly_name`: extract the WASM artifact name from the
module directory.  The argument is the text of the directory's `Earthfile`,
`none` when `ef.exists()` is false. -/
def earthly_name (earthfile : Option String) : Option String :=
  match earthfile with
  | none => none
  | some text => EARTHLY_RE_search text

/-- Replacement of one character under `name.replace("-", "_")`. -/
def repChar (c : Char) : Char :=
  if c = '-' then '_' else c

/-- Python `name.replace("-", "_")`. -/
def pyReplaceDash (s : String) : String :=
  String.mk (s.data.map repChar)

/-- Python `str.lower()`.  All names the script handles are ASCII, where
simple case mapping is `Char.toLower`. -/
def pyLower (s : String) : String :=
  String.mk (s.data.map Char.toLower)

/-- Lines 44-49, `normalize`: `None` (and, by truthiness, the empty string)
propagates; otherwise replace every hyphen by an underscore and lower-case
the result. -/
def normalize (name : Option String) : Option String :=
  match name with
  | none => none
  | some s => if s = "" then none else some (pyLower (pyReplaceDash s))

/-- One directory discovered by `ROOT.rglob("Cargo.toml")`: the directory
path (`cargo.parent`), the manifest parse outcome, and the `Earthfile` text
when that file exists. -/
structure Dir where
  path : String
  manifest : ManifestSrc
  earthfile : Option String

/-- The f-string of line 62:
`f"{cargo.parent}: Cargo '{name}' vs Earthly '{e_name}'"`. -/
def mismatchLine (dirPath cargoName earthlyName : String) : String :=
  dirPath ++ ": Cargo \x27" ++ cargoName ++ "\x27 vs Earthly \x27" ++ earthlyName ++ "\x27"

/-- Lines 53-62, one iteration of the driver loop: `.ok (some line)` when a
mismatch line is appended for this directory, `.ok none` when the directory
is skipped, `.error e` when an exception aborts the run.  `name` is falsy
when `cargo_name` returned `None` or an empty value; `normalize(name)` on a
truthy non-string raises `AttributeError` (evaluated only after the guard
`e_name` is truthy). -/
def processDir (d : Dir) : Except RunErr (Option String) :=
  match cargo_name d.manifest with
  | .error e => .error e
  | .ok none => .ok none
  | .ok (some name) =>
    if truthy name then
      match earthly_name d.earthfile with
      | none => .ok none
      | some e_name =>
        if e_name = "" then .ok none
        else
          match name with
          | .str s =>
            if normalize (some e_name) ≠ normalize (some s) then
              .ok (some (mismatchLine d.path s e_name))
            else .ok none
          | _ => .error .attributeError
    else .ok none

/-- The driver loop over every discovered `Cargo.toml`, in discovery order:
the collected `errors` list, or the first uncaught exception. -/
def scan : List Dir → Except RunErr (List String)
  | [] => .ok []
  | d :: rest =>
    match processDir d with
    | .error e => .error e
    | .ok none => scan rest
    | .ok (some line) =>
      match scan rest with
      | .error e => .error e
      | .ok lines => .ok (line :: lines)

/-- Observable outcome of the process: the text printed to standard output
and the exit status. -/
structure Final where
  stdout : String
  exitCode : Nat
deriving DecidableEq

/-- Lines 52-66, the whole script: run the scan; on an uncaught exception
the interpreter prints a traceback to standard error and exits with status
1 (nothing on standard output); otherwise `print("\n".join(errors))` and
`sys.exit(1)` when `errors` is non-empty, and a fall-through exit 0 when it
is empty. -/
def runScript (dirs : List Dir) : Final :=
  match scan dirs with
  | .error _ => ⟨"", 1⟩
  | .ok [] => ⟨"", 0⟩
  | .ok (l :: ls) => ⟨String.intercalate "\n" (l :: ls) ++ "\n", 1⟩

/-- ManifestRecord.declaredName of the spec data model, as the driver
effectively uses it: the name `cargo_name` yields, when that is a truthy
string (the driver skips falsy names at line 54-55, and only string names
reach the comparison). -/
def manifestDeclaredName (m : ManifestSrc) : Option String :=
  match cargo_name m with
  | .ok (some (.str s)) => if s = "" then none else some s
  | _ => none

/-- The manifest's library section lacks the cdylib marker in its crate-type
list: the lib section is missing, or it is a table whose crate-type entry is
missing, or that entry is a list in which the membership test for "cdylib"
fails.  (Non-list crate-type values and non-table lib sections are outside
this shape.) -/
def lacksCdylib (data : List (String × Toml)) : Prop :=
  match tableGet data "lib" with
  | none => True
  | some (.table lib) =>
    match tableGet lib "crate-type" with
    | none => True
    | some (.list xs) => pyIn "cdylib" (.list xs) = false
    | some _ => False
  | some _ => False

/-- A hyphen or an underscore. -/
def dashLike (c : Char) : Prop := c = '-' ∨ c = '_'

/-- Two characters that are the same letter up to ASCII case: equal, or one
is the upper-case ASCII letter (code 65-90) and the other its lower-case
counterpart (code + 32). -/
def caseVariant (c d : Char) : Prop :=
  c = d ∨ (65 ≤ c.toNat ∧ c.toNat ≤ 90 ∧ d.toNat = c.toNat + 32) ∨
    (65 ≤ d.toNat ∧ d.toNat ≤ 90 ∧ c.toNat = d.toNat + 32)

/-- Two characters that differ only in hyphen-versus-underscore choice or in
letter case. -/
def similarChar (c d : Char) : Prop :=
  caseVariant c d ∨ (dashLike c ∧ dashLike d)

/-- Two names that differ only in hyphen-versus-underscore choice and letter
case: equal length and position-wise `similarChar`. -/
def similarName (a b : String) : Prop :=
  List.Forall₂ similarChar a.data b.data

/-- The per-character action of `normalize` on a non-empty name: replace a
hyphen by an underscore, then lower-case. -/
def normChar (c : Char) : Char :=
  Char.toLower (repChar c)

end NameCheck

namespace NameCheck

/-! ## Helper lemmas -/

/-- A directory whose manifest text is malformed TOML makes its loop
iteration raise the decode error. -/
theorem processDir_of_malformed (d : Dir) (h : d.manifest = .malformed) :
    processDir d = .error .tomlDecodeError := by
  simp [processDir, cargo_name, h]

/-- If every directory before `d` completes its iteration and `d` raises,
the scan raises `d`'s exception. -/
theorem scan_error_first (pre post : List Dir) (d : Dir) (e : RunErr)
    (hpre : ∀ p ∈ pre, ∃ r, processDir p = .ok r)
    (hd : processDir d = .error e) :
    scan (pre ++ d :: post) = .error e := by
  induction pre with
  | nil => simp [scan, hd]
  | cons p rest ih =>
    obtain ⟨r, hr⟩ := hpre p (List.mem_cons_self p rest)
    have hrest := ih (fun q hq => hpre q (List.mem_cons_of_mem p hq))
    cases r with
    | none => simp [scan, hr, hrest]
    | some line => simp [scan, hr, hrest]

/-- If some directory of the run raises, the scan raises (possibly an
earlier directory's exception). -/
theorem scan_error_of_mem (dirs : List Dir) (d : Dir) (e : RunErr)
    (hmem : d ∈ dirs) (hd : processDir d = .error e) :
    ∃ e₂, scan dirs = .error e₂ := by
  induction dirs with
  | nil => cases hmem
  | cons a rest ih =>
    rcases List.mem_cons.mp hmem with h | h
    · subst h
      exact ⟨e, by simp [scan, hd]⟩
    · cases ha : processDir a with
      | error e₃ => exact ⟨e₃, by simp [scan, ha]⟩
      | ok r =>
        obtain ⟨e₂, h₂⟩ := ih h
        cases r with
        | none => exact ⟨e₂, by simp [scan, ha, h₂]⟩
        | some line => exact ⟨e₂, by simp [scan, ha, h₂]⟩

/-- A run in which every iteration completes without a mismatch collects
nothing. -/
theorem scan_all_none (dirs : List Dir)
    (h : ∀ d ∈ dirs, processDir d = .ok none) : scan dirs = .ok [] := by
  induction dirs with
  | nil => rfl
  | cons a rest ih =>
    simp [scan, h a (List.mem_cons_self a rest),
      ih (fun d hd => h d (List.mem_cons_of_mem a hd))]

end NameCheck

namespace NameCheck

/-! ## Claim theorems -/

/-- Claim C2 (code bug evidence): for the recipe directive text
`SAVE ARTIFACT ./target foo-mod.wasm` the regex of the script extracts no
name at all — the name must immediately follow the literal
`SAVE ARTIFACT `, so the intervening `./target ` defeats the pattern — and
consequently a directory whose manifest declares the cdylib name `foo` and
whose Earthfile holds exactly this directive produces no mismatch, against
the claim (and the script's own comment describing
`SAVE ARTIFACT ... foo.wasm` statements). -/
theorem save_artifact_with_separate_path_yields_no_match :
    earthly_name (some "SAVE ARTIFACT ./target foo-mod.wasm") = none ∧
    processDir ⟨"m",
      .parsed [("lib", .table [("crate-type", .list [.str "cdylib"]), ("name", .str "foo")])],
      some "SAVE ARTIFACT ./target foo-mod.wasm"⟩ = .ok none ∧
    earthly_name (some "SAVE ARTIFACT foo-mod.wasm") = some "foo-mod" := by
  refine ⟨rfl, rfl, rfl⟩

/-- Claim C3: when the scan completes with collected list `errors`, the
process prints the lines joined by newlines and exits 1 when the list is
non-empty, and prints nothing and exits 0 when it is empty. -/
theorem report_lines_and_exit_status (dirs : List Dir) (errors : List String)
    (h : scan dirs = .ok errors) :
    (errors = [] → runScript dirs = ⟨"", 0⟩) ∧
    (errors ≠ [] → runScript dirs = ⟨String.intercalate "\n" errors ++ "\n", 1⟩) := by
  constructor
  · intro he
    subst he
    simp [runScript, h]
  · intro hne
    cases errors with
    | nil => exact absurd rfl hne
    | cons l ls => simp [runScript, h]

/-- Witness for C3: a run with one mismatching directory prints that one
line and exits 1; the empty run prints nothing and exits 0. -/
theorem report_lines_and_exit_status_witness :
    runScript [⟨"m",
      .parsed [("lib", .table [("crate-type", .list [.str "cdylib"]), ("name", .str "b")])],
      some "--out=a.wasm"⟩] =
        ⟨String.intercalate "\n" [mismatchLine "m" "b" "a"] ++ "\n", 1⟩ ∧
    runScript [] = ⟨"", 0⟩ :=
  ⟨(report_lines_and_exit_status
      [⟨"m", .parsed [("lib", .table [("crate-type", .list [.str "cdylib"]), ("name", .str "b")])],
        some "--out=a.wasm"⟩]
      [mismatchLine "m" "b" "a"] rfl).2 (List.cons_ne_nil _ _),
    (report_lines_and_exit_status [] [] rfl).1 rfl⟩

/-- Claim C4: a malformed manifest anywhere in the run aborts the whole
scan.  When every directory before it completes, the abort is exactly the
TOML decode error; in any case the process prints nothing to standard
output and exits with status 1, however many well-formed manifests the
tree holds. -/
theorem malformed_manifest_aborts_run :
    (∀ (pre post : List Dir) (d : Dir), d.manifest = .malformed →
      (∀ p ∈ pre, ∃ r, processDir p = .ok r) →
      scan (pre ++ d :: post) = .error .tomlDecodeError) ∧
    (∀ dirs : List Dir, (∃ d ∈ dirs, d.manifest = .malformed) →
      (runScript dirs).stdout = "" ∧ (runScript dirs).exitCode = 1) := by
  constructor
  · intro pre post d hd hpre
    exact scan_error_first pre post d _ hpre (processDir_of_malformed d hd)
  · intro dirs hex
    obtain ⟨d, hmem, hd⟩ := hex
    obtain ⟨e, he⟩ := scan_error_of_mem dirs d _ hmem (processDir_of_malformed d hd)
    simp [runScript, he]

/-- Witness for C4: a run of one well-formed manifest followed by one
malformed manifest aborts with the decode error, empty output, status 1. -/
theorem malformed_manifest_aborts_run_witness :
    scan [⟨"a", .parsed [], none⟩, ⟨"b", .malformed, none⟩] = .error .tomlDecodeError ∧
    (runScript [⟨"a", .parsed [], none⟩, ⟨"b", .malformed, none⟩]).stdout = "" ∧
    (runScript [⟨"a", .parsed [], none⟩, ⟨"b", .malformed, none⟩]).exitCode = 1 :=
  ⟨malformed_manifest_aborts_run.1 [⟨"a", .parsed [], none⟩] [] ⟨"b", .malformed, none⟩ rfl
      (by
        intro p hp
        have : p = ⟨"a", .parsed [], none⟩ := by simpa using hp
        exact ⟨none, by rw [this]; rfl⟩),
    malformed_manifest_aborts_run.2 [⟨"a", .parsed [], none⟩, ⟨"b", .malformed, none⟩]
      ⟨⟨"b", .malformed, none⟩, by simp, rfl⟩⟩

/-- Claim C7: when the manifest's library section lacks the cdylib marker
(including a missing crate-type list or a missing lib section),
`cargo_name` returns no name and the directory never yields a mismatch,
whatever its Earthfile contains. -/
theorem non_cdylib_manifest_never_mismatches (data : List (String × Toml))
    (h : lacksCdylib data) :
    cargo_name (.parsed data) = .ok none ∧
    ∀ (p : String) (ef : Option String), processDir ⟨p, .parsed data, ef⟩ = .ok none := by
  have hc : cargo_name (.parsed data) = .ok none := by
    unfold lacksCdylib at h
    split at h
    · rename_i hl
      simp only [cargo_name, hl, Option.getD_none]
      rfl
    · rename_i lib hl
      split at h
      · rename_i hct
        simp only [cargo_name, hl, Option.getD_some, hct, Option.getD_none]
        rfl
      · rename_i xs hct
        simp only [cargo_name, hl, Option.getD_some, hct, h]
        rfl
      · exact h.elim
    · exact h.elim
  refine ⟨hc, fun p ef => ?_⟩
  simp [processDir, hc]

/-- Witness for C7: the empty manifest table has no lib section; even an
Earthfile whose directive matches the regex yields no mismatch. -/
theorem non_cdylib_manifest_never_mismatches_witness :
    cargo_name (.parsed []) = .ok none ∧
    processDir ⟨"d", .parsed [], some "SAVE ARTIFACT x.wasm"⟩ = .ok none :=
  ⟨(non_cdylib_manifest_never_mismatches [] trivial).1,
    (non_cdylib_manifest_never_mismatches [] trivial).2 "d" (some "SAVE ARTIFACT x.wasm")⟩

end NameCheck

namespace NameCheck

/-- Claim C8 counterexample: a directory whose manifest declares a cdylib
target (crate-type contains "cdylib") but carries neither a library name
nor a package table, and which has no Earthfile, makes the run abort with
exit status 1 — not exit successfully as the claim states.  The name lookup
raises before the recipe scan is ever consulted. -/
theorem cdylib_without_name_and_no_earthfile_aborts :
    pyIn "cdylib" (Toml.list [Toml.str "cdylib"]) = true ∧
    cargo_name (.parsed [("lib", .table [("crate-type", .list [.str "cdylib"])])]) =
      .error .keyError ∧
    (runScript [⟨"d", .parsed [("lib", .table [("crate-type", .list [.str "cdylib"])])],
      none⟩]).exitCode = 1 ∧ (1 : Nat) ≠ 0 :=
  ⟨rfl, rfl, rfl, by decide⟩

/-- Claim C8 (amended): for a directory whose manifest declares a cdylib
target and yields a declared name, but which has no recipe-scan result
(no Earthfile, or no recognized directive), no mismatch is produced; and a
run in which every directory produces no mismatch exits with status 0 and
prints nothing. -/
theorem no_earthfile_no_mismatch_and_success (d : Dir) (v : Toml)
    (hname : cargo_name d.manifest = .ok (some v))
    (hef : earthly_name d.earthfile = none) :
    processDir d = .ok none ∧
    ∀ dirs : List Dir, d ∈ dirs → (∀ p ∈ dirs, processDir p = .ok none) →
      runScript dirs = ⟨"", 0⟩ := by
  constructor
  · cases htr : truthy v with
    | false => simp [processDir, hname, htr]
    | true => simp [processDir, hname, htr, hef]
  · intro dirs _ hall
    simp [runScript, scan_all_none dirs hall]

/-- Witness for the amended C8: a cdylib manifest named "n" with no
Earthfile produces no mismatch, and the singleton run exits 0 with no
output. -/
theorem no_earthfile_no_mismatch_and_success_witness :
    processDir ⟨"d",
      .parsed [("lib", .table [("crate-type", .list [.str "cdylib"]), ("name", .str "n")])],
      none⟩ = .ok none ∧
    runScript [⟨"d",
      .parsed [("lib", .table [("crate-type", .list [.str "cdylib"]), ("name", .str "n")])],
      none⟩] = ⟨"", 0⟩ :=
  ⟨(no_earthfile_no_mismatch_and_success
      ⟨"d", .parsed [("lib", .table [("crate-type", .list [.str "cdylib"]), ("name", .str "n")])],
        none⟩
      (.str "n") rfl rfl).1,
    (no_earthfile_no_mismatch_and_success
        ⟨"d", .parsed [("lib", .table [("crate-type", .list [.str "cdylib"]), ("name", .str "n")])],
          none⟩
        (.str "n") rfl rfl).2 _ (by simp)
      (by
        intro p hp
        have hp2 := List.mem_singleton.mp hp
        rw [hp2]
        rfl)⟩

/-- Claim C9 counterexample: when the library name field is present but
holds the empty string, `cargo_name` does not return that value — the
Python `or` treats the falsy empty string as absent and falls back to the
package name.  Here the lib table carries `name = ""` yet the declared name
comes out as "pkg". -/
theorem empty_lib_name_falls_back_to_package :
    tableGet [("crate-type", Toml.list [Toml.str "cdylib"]), ("name", Toml.str "")] "name" =
      some (Toml.str "") ∧
    cargo_name (.parsed
      [("lib", .table [("crate-type", .list [.str "cdylib"]), ("name", .str "")]),
       ("package", .table [("name", .str "pkg")])]) = .ok (some (.str "pkg")) ∧
    "pkg" ≠ "" :=
  ⟨rfl, rfl, by decide⟩

/-- Claim C9 (amended): for a manifest declaring a cdylib target, the
declared name is the value of the library name field when that field is
present with a truthy (non-empty) value, and otherwise the top-level
package name field; and the mismatch line reports the original
un-normalized names. -/
theorem declared_name_resolution_and_raw_reporting :
    (∀ (data lib : List (String × Toml)) (v : Toml),
      tableGet data "lib" = some (.table lib) →
      pyIn "cdylib" ((tableGet lib "crate-type").getD (.list [])) = true →
      tableGet lib "name" = some v → truthy v = true →
      cargo_name (.parsed data) = .ok (some v)) ∧
    (∀ (data lib pkg : List (String × Toml)) (w : Toml),
      tableGet data "lib" = some (.table lib) →
      pyIn "cdylib" ((tableGet lib "crate-type").getD (.list [])) = true →
      (tableGet lib "name" = none ∨ ∃ v, tableGet lib "name" = some v ∧ truthy v = false) →
      tableGet data "package" = some (.table pkg) →
      tableGet pkg "name" = some w →
      cargo_name (.parsed data) = .ok (some w)) ∧
    (∀ (p : String) (m : ManifestSrc) (ef : Option String) (s en : String),
      cargo_name m = .ok (some (.str s)) → s ≠ "" →
      earthly_name ef = some en → en ≠ "" →
      normalize (some en) ≠ normalize (some s) →
      processDir ⟨p, m, ef⟩ = .ok (some (mismatchLine p s en))) := by
  refine ⟨?_, ?_, ?_⟩
  · intro data lib v hl hcd hn htr
    simp [cargo_name, hl, Option.getD_some, hcd, hn, htr]
  · intro data lib pkg w hl hcd hn hp hpn
    have hpkg : packageNameField data = .ok w := by
      simp only [packageNameField, hp, hpn]
    rcases hn with hn | ⟨v, hv, hvf⟩
    · simp [cargo_name, hl, Option.getD_some, hcd, hn, hpkg, Except.map]
    · simp [cargo_name, hl, Option.getD_some, hcd, hv, hvf, hpkg, Except.map]
  · intro p m ef s en hc hs he hen hne
    have htr : truthy (Toml.str s) = true := by
      simp [truthy, hs]
    simp [processDir, hc, htr, he, hen, hne]

/-- Witness for the amended C9: an explicit truthy lib name wins; a missing
lib name falls back to the package name; a mismatching directory reports
the raw names "foo-bar" and "foo" in its line. -/
theorem declared_name_resolution_and_raw_reporting_witness :
    cargo_name (.parsed
      [("lib", .table [("crate-type", .list [.str "cdylib"]), ("name", .str "lifted")]),
       ("package", .table [("name", .str "pkg")])]) = .ok (some (.str "lifted")) ∧
    cargo_name (.parsed
      [("lib", .table [("crate-type", .list [.str "cdylib"])]),
       ("package", .table [("name", .str "pkg")])]) = .ok (some (.str "pkg")) ∧
    processDir ⟨"m",
      .parsed [("lib", .table [("crate-type", .list [.str "cdylib"]), ("name", .str "foo-bar")])],
      some "--out=foo.wasm"⟩ = .ok (some (mismatchLine "m" "foo-bar" "foo")) :=
  ⟨declared_name_resolution_and_raw_reporting.1 _ _ (.str "lifted") rfl rfl rfl rfl,
    declared_name_resolution_and_raw_reporting.2.1 _ _ _ (.str "pkg") rfl rfl (Or.inl rfl) rfl rfl,
    declared_name_resolution_and_raw_reporting.2.2 "m" _ _ "foo-bar" "foo" rfl (by decide) rfl
      (by decide) (by decide)⟩

/-- Claim C10: a manifest whose crate-type list contains "cdylib" but which
has no library name field and no package name to fall back to makes
`cargo_name` raise `KeyError`; the run aborts with exit status 1 and no
output instead of skipping the directory. -/
theorem cdylib_without_any_name_raises_keyerror
    (data lib : List (String × Toml)) (xs : List Toml)
    (hlib : tableGet data "lib" = some (.table lib))
    (hct : tableGet lib "crate-type" = some (.list xs))
    (hcd : pyIn "cdylib" (.list xs) = true)
    (hnm : tableGet lib "name" = none)
    (hpkg : tableGet data "package" = none ∨
      ∃ pkg, tableGet data "package" = some (.table pkg) ∧ tableGet pkg "name" = none) :
    cargo_name (.parsed data) = .error .keyError ∧
    ∀ (p : String) (ef : Option String) (pre post : List Dir),
      (∀ q ∈ pre, ∃ r, processDir q = .ok r) →
      runScript (pre ++ ⟨p, .parsed data, ef⟩ :: post) = ⟨"", 1⟩ := by
  have hpf : packageNameField data = .error .keyError := by
    rcases hpkg with h | ⟨pkg, h1, h2⟩
    · simp only [packageNameField, h]
    · simp only [packageNameField, h1, h2]
  have hc : cargo_name (.parsed data) = .error .keyError := by
    simp only [cargo_name, hlib, Option.getD_some, hct, hcd, if_true, hnm, hpf]
    rfl
  refine ⟨hc, fun p ef pre post hpre => ?_⟩
  have hpd : processDir ⟨p, .parsed data, ef⟩ = .error .keyError := by
    simp [processDir, hc]
  have hscan := scan_error_first pre post _ _ hpre hpd
  simp [runScript, hscan]

/-- Witness for C10: the minimal cdylib manifest with no name anywhere
raises `KeyError` and its singleton run exits 1 with empty output. -/
theorem cdylib_without_any_name_raises_keyerror_witness :
    cargo_name (.parsed [("lib", .table [("crate-type", .list [.str "cdylib"])])]) =
      .error .keyError ∧
    runScript [⟨"q", .parsed [("lib", .table [("crate-type", .list [.str "cdylib"])])],
      none⟩] = ⟨"", 1⟩ :=
  ⟨(cdylib_without_any_name_raises_keyerror
      [("lib", .table [("crate-type", .list [.str "cdylib"])])]
      [("crate-type", .list [.str "cdylib"])] [.str "cdylib"]
      rfl rfl rfl rfl (Or.inl rfl)).1,
    (cdylib_without_any_name_raises_keyerror
      [("lib", .table [("crate-type", .list [.str "cdylib"])])]
      [("crate-type", .list [.str "cdylib"])] [.str "cdylib"]
      rfl rfl rfl rfl (Or.inl rfl)).2 "q" none [] []
      (by intro q hq; exact absurd hq (List.not_mem_nil q))⟩

end NameCheck

namespace NameCheck

/-- Claim C5: the recipe scanner returns the captured name of the leftmost
position at which the regex matches and ignores all later directives; on
the concrete text `--out=a.wasm` followed by `SAVE ARTIFACT x b.wasm` it
extracts `a`, and a manifest declaring the cdylib name `b` is reported as
mismatched against `a`. -/
theorem first_directive_wins :
    (∀ (cs : List Char) (i : Nat) (name : String),
      matchAt (List.drop i cs) = some name →
      (∀ j, j < i → matchAt (List.drop j cs) = none) →
      searchFirst cs = some name) ∧
    EARTHLY_RE_search "--out=a.wasm\nSAVE ARTIFACT x b.wasm" = some "a" ∧
    processDir ⟨"m",
      .parsed [("lib", .table [("crate-type", .list [.str "cdylib"]), ("name", .str "b")])],
      some "--out=a.wasm\nSAVE ARTIFACT x b.wasm"⟩ =
      .ok (some (mismatchLine "m" "b" "a")) := by
  refine ⟨?_, rfl, rfl⟩
  intro cs
  induction cs with
  | nil =>
    intro i name h _
    rw [List.drop_nil] at h
    have hnone : matchAt ([] : List Char) = none := rfl
    rw [hnone] at h
    cases h
  | cons c rest ih =>
    intro i name h hmin
    cases i with
    | zero =>
      rw [List.drop_zero] at h
      simp [searchFirst, h]
    | succ i =>
      have h0 : matchAt (c :: rest) = none := by
        simpa using hmin 0 (Nat.succ_pos i)
      have h2 : matchAt (List.drop i rest) = some name := by
        simpa using h
      have hmin2 : ∀ j, j < i → matchAt (List.drop j rest) = none := by
        intro j hj
        simpa using hmin (j + 1) (Nat.succ_lt_succ hj)
      simp [searchFirst, h0, ih i name h2 hmin2]

/-- Witness for C5: the leftmost-match clause applied at position 0 of the
text `--out=a.wasm`. -/
theorem first_directive_wins_witness :
    searchFirst "--out=a.wasm".data = some "a" :=
  first_directive_wins.1 "--out=a.wasm".data 0 "a" rfl
    (fun j hj => absurd hj (Nat.not_lt_zero j))

end NameCheck

namespace NameCheck

/-- A `Nat` below the surrogate range packs and unpacks exactly. -/
theorem char_toNat_ofNat_lt (n : Nat) (h : n < 55296) : (Char.ofNat n).toNat = n := by
  rw [Char.ofNat, dif_pos (Or.inl h)]
  rfl

/-- Characters with equal code points are equal. -/
theorem char_eq_of_toNat_eq {c d : Char} (h : c.toNat = d.toNat) : c = d := by
  have h1 := Char.ofNat_toNat c
  rw [h] at h1
  exact h1.symm.trans (Char.ofNat_toNat d)

/-- Lowering an upper-case ASCII letter adds 32 to its code point. -/
theorem toLower_toNat_of_upper {c : Char} (h1 : 65 ≤ c.toNat) (h2 : c.toNat ≤ 90) :
    (Char.toLower c).toNat = c.toNat + 32 := by
  have he : Char.toLower c = Char.ofNat (c.toNat + 32) := by
    unfold Char.toLower
    exact if_pos ⟨h1, h2⟩
  rw [he]
  exact char_toNat_ofNat_lt _ (by omega)

/-- Lowering fixes everything outside the upper-case ASCII range. -/
theorem toLower_eq_self {c : Char} (h : ¬(65 ≤ c.toNat ∧ c.toNat ≤ 90)) :
    Char.toLower c = c := by
  unfold Char.toLower
  exact if_neg h

/-- Lowering is idempotent. -/
theorem toLower_toLower (c : Char) : Char.toLower (Char.toLower c) = Char.toLower c := by
  by_cases h : 65 ≤ c.toNat ∧ c.toNat ≤ 90
  · apply toLower_eq_self
    rw [toLower_toNat_of_upper h.1 h.2]
    omega
  · rw [toLower_eq_self h]
    exact toLower_eq_self h

/-- Lowering never produces a hyphen from a non-hyphen. -/
theorem toLower_ne_dash {c : Char} (h : c ≠ '-') : Char.toLower c ≠ '-' := by
  by_cases hu : 65 ≤ c.toNat ∧ c.toNat ≤ 90
  · intro heq
    have ht := toLower_toNat_of_upper hu.1 hu.2
    rw [heq] at ht
    have h45 : ('-').toNat = 45 := rfl
    rw [h45] at ht
    omega
  · rw [toLower_eq_self hu]
    exact h

/-- The replacement step never outputs a hyphen. -/
theorem repChar_ne_dash (c : Char) : repChar c ≠ '-' := by
  unfold repChar
  split
  · decide
  · assumption

/-- The per-character normalization is idempotent. -/
theorem normChar_idem (c : Char) : normChar (normChar c) = normChar c := by
  unfold normChar
  have h2 : Char.toLower (repChar c) ≠ '-' := toLower_ne_dash (repChar_ne_dash c)
  have h3 : repChar (Char.toLower (repChar c)) = Char.toLower (repChar c) := by
    unfold repChar
    exact if_neg h2
  rw [h3, toLower_toLower]

/-- The string built from a character list is empty exactly when the list
is. -/
theorem string_mk_eq_empty_iff (l : List Char) : String.mk l = "" ↔ l = [] := by
  constructor
  · intro h
    have h2 := congrArg String.data h
    simpa using h2
  · intro h
    rw [h]

/-- On a non-empty name, `normalize` is the per-character map `normChar`. -/
theorem normalize_eq_map (s : String) (hs : s ≠ "") :
    normalize (some s) = some (String.mk (s.data.map normChar)) := by
  simp only [normalize, if_neg hs, pyLower, pyReplaceDash, List.map_map]
  rfl

/-- Characters that differ only by case or by hyphen-versus-underscore
normalize alike: the case where `c` is the upper-case letter. -/
theorem normChar_eq_of_upper_pair {c d : Char}
    (h1 : 65 ≤ c.toNat) (h2 : c.toNat ≤ 90) (h3 : d.toNat = c.toNat + 32) :
    normChar c = normChar d := by
  have h45 : ('-').toNat = 45 := rfl
  have hcd : c ≠ '-' := by
    intro h
    rw [h, h45] at h1
    omega
  have hdd : d ≠ '-' := by
    intro h
    rw [h, h45] at h3
    omega
  unfold normChar repChar
  rw [if_neg hcd, if_neg hdd]
  have hdl : Char.toLower d = d := toLower_eq_self (by omega)
  rw [hdl]
  apply char_eq_of_toNat_eq
  rw [toLower_toNat_of_upper h1 h2, h3]

/-- Similar characters have equal normalizations. -/
theorem normChar_eq_of_similar {c d : Char} (h : similarChar c d) :
    normChar c = normChar d := by
  rcases h with hcv | ⟨hc, hd⟩
  · rcases hcv with rfl | ⟨h1, h2, h3⟩ | ⟨h1, h2, h3⟩
    · rfl
    · exact normChar_eq_of_upper_pair h1 h2 h3
    · exact (normChar_eq_of_upper_pair h1 h2 h3).symm
  · rcases hc with rfl | rfl <;> rcases hd with rfl | rfl <;> decide

/-- Position-wise similar lists normalize to the same list. -/
theorem map_normChar_eq_of_forall2 {a b : List Char}
    (h : List.Forall₂ similarChar a b) : a.map normChar = b.map normChar := by
  induction h with
  | nil => rfl
  | cons hcd _ ih => simp [normChar_eq_of_similar hcd, ih]

/-- Claim C6: `normalize` acts per character by hyphen-replacement followed
by lower-casing; names that differ only in hyphen-versus-underscore choice
and letter case normalize equal; and `normalize` is idempotent. -/
theorem normalize_separator_case_facts :
    (∀ s : String, s ≠ "" →
      normalize (some s) = some (String.mk (s.data.map normChar))) ∧
    (∀ a b : String, a ≠ "" → similarName a b →
      normalize (some a) = normalize (some b)) ∧
    (∀ o : Option String, normalize (normalize o) = normalize o) := by
  refine ⟨normalize_eq_map, ?_, ?_⟩
  · intro a b ha h
    unfold similarName at h
    have hb : b ≠ "" := by
      intro hbe
      rw [hbe] at h
      have h0 : List.Forall₂ similarChar a.data [] := h
      have hb2 : a.data = [] := List.forall₂_nil_right_iff.mp h0
      apply ha
      cases a with
      | mk l =>
        have h4 : l = [] := hb2
        rw [h4]
    rw [normalize_eq_map a ha, normalize_eq_map b hb,
      map_normChar_eq_of_forall2 h]
  · intro o
    cases o with
    | none => rfl
    | some s =>
      by_cases hs : s = ""
      · rw [hs]
        rfl
      · rw [normalize_eq_map s hs]
        have hne : String.mk (s.data.map normChar) ≠ "" := by
          intro h
          have h2 : s.data.map normChar = [] := (string_mk_eq_empty_iff _).mp h
          have h3 : s.data = [] := by simpa using h2
          apply hs
          cases s with
          | mk l =>
            have h4 : l = [] := h3
            rw [h4]
        rw [normalize_eq_map _ hne]
        have hdata : (String.mk (s.data.map normChar)).data = s.data.map normChar := rfl
        rw [hdata, List.map_map]
        have hmaps : s.data.map (normChar ∘ normChar) = s.data.map normChar :=
          List.map_congr_left (fun c _ => normChar_idem c)
        rw [hmaps]

/-- Witness for C6: concrete instances of the three clauses at the names
`A-b`, `a_B` and `X-y`. -/
theorem normalize_separator_case_facts_witness :
    normalize (some "A-b") = some (String.mk ("A-b".data.map normChar)) ∧
    normalize (some "A-b") = normalize (some "a_B") ∧
    normalize (normalize (some "X-y")) = normalize (some "X-y") :=
  ⟨normalize_separator_case_facts.1 "A-b" (by decide),
    normalize_separator_case_facts.2.1 "A-b" "a_B" (by decide)
      (List.Forall₂.cons (Or.inl (Or.inr (Or.inl (by decide))))
        (List.Forall₂.cons (Or.inr ⟨Or.inl rfl, Or.inr rfl⟩)
          (List.Forall₂.cons (Or.inl (Or.inr (Or.inr (by decide))))
            List.Forall₂.nil))),
    normalize_separator_case_facts.2.2 (some "X-y")⟩

end NameCheck

namespace NameCheck

/-- The captured group of a regex match is never the empty string (the
class requires at least one character). -/
theorem matchName_ne_empty {cs : List Char} {s : String}
    (h : matchName cs = some s) : s ≠ "" := by
  simp only [matchName] at h
  split at h
  · exact absurd h (by simp)
  · rename_i hrun
    split at h
    · have hs : String.mk (cs.takeWhile isNameChar) = s := Option.some.inj h
      intro hempty
      rw [hempty] at hs
      have hnil : cs.takeWhile isNameChar = [] := (string_mk_eq_empty_iff _).mp hs
      rw [hnil] at hrun
      exact hrun rfl
    · exact absurd h (by simp)

/-- An anchored match never captures the empty string. -/
theorem matchAt_ne_empty {cs : List Char} {s : String}
    (h : matchAt cs = some s) : s ≠ "" := by
  simp only [matchAt] at h
  split at h
  · exact matchName_ne_empty h
  · split at h
    · exact matchName_ne_empty h
    · exact absurd h (by simp)

/-- The search never returns the empty string. -/
theorem searchFirst_ne_empty {cs : List Char} {s : String}
    (h : searchFirst cs = some s) : s ≠ "" := by
  induction cs with
  | nil => exact absurd h (by simp [searchFirst])
  | cons c rest ih =>
    simp only [searchFirst] at h
    cases hm : matchAt (c :: rest) with
    | some t =>
      rw [hm] at h
      have h2 : some t = some s := h
      rw [Option.some.inj h2] at hm
      exact matchAt_ne_empty hm
    | none =>
      rw [hm] at h
      exact ih h

/-- The recipe scanner never yields the empty string as a name. -/
theorem earthly_name_ne_empty {ef : Option String} {s : String}
    (h : earthly_name ef = some s) : s ≠ "" := by
  cases ef with
  | none => exact absurd h (by simp [earthly_name])
  | some t => exact searchFirst_ne_empty h

/-- Claim C1: a directory's iteration produces a mismatch line exactly when
the manifest yields a (truthy string) declared name, the recipe scan yields
a name, and the two normalize differently; absence of either side never
produces a line. -/
theorem mismatch_iff_both_names_present_and_normalized_differ (d : Dir) :
    (∃ line, processDir d = .ok (some line)) ↔
    (∃ a b, manifestDeclaredName d.manifest = some a ∧
      earthly_name d.earthfile = some b ∧
      normalize (some a) ≠ normalize (some b)) := by
  cases hc : cargo_name d.manifest with
  | error e =>
    constructor
    · rintro ⟨line, h⟩
      simp [processDir, hc] at h
    · rintro ⟨a, b, ha, hb, hne⟩
      simp [manifestDeclaredName, hc] at ha
  | ok o =>
    cases o with
    | none =>
      constructor
      · rintro ⟨line, h⟩
        simp [processDir, hc] at h
      · rintro ⟨a, b, ha, hb, hne⟩
        simp [manifestDeclaredName, hc] at ha
    | some v =>
      cases v with
      | str s =>
        by_cases hs : s = ""
        · subst hs
          constructor
          · rintro ⟨line, h⟩
            simp [processDir, hc, truthy] at h
          · rintro ⟨a, b, ha, hb, hne⟩
            simp [manifestDeclaredName, hc] at ha
        · have htr : truthy (.str s) = true := by simp [truthy, hs]
          have hmd : manifestDeclaredName d.manifest = some s := by
            simp [manifestDeclaredName, hc, hs]
          cases he : earthly_name d.earthfile with
          | none =>
            constructor
            · rintro ⟨line, h⟩
              simp [processDir, hc, htr, he] at h
            · rintro ⟨a, b, ha, hb, hne⟩
              cases hb
          | some en =>
            have hen : en ≠ "" := earthly_name_ne_empty he
            by_cases hcmp : normalize (some en) ≠ normalize (some s)
            · constructor
              · intro _
                exact ⟨s, en, hmd, rfl, Ne.symm hcmp⟩
              · intro _
                exact ⟨mismatchLine d.path s en,
                  by simp [processDir, hc, htr, he, hen, hcmp]⟩
            · have heq : normalize (some en) = normalize (some s) := not_not.mp hcmp
              constructor
              · rintro ⟨line, h⟩
                simp [processDir, hc, htr, he, hen, heq] at h
              · rintro ⟨a, b, ha, hb, hne⟩
                have ha2 : a = s := (Option.some.inj (hmd.symm.trans ha)).symm
                have hb2 : b = en := (Option.some.inj hb).symm
                rw [ha2, hb2] at hne
                exact (hne heq.symm).elim
      | list xs =>
        constructor
        · rintro ⟨line, h⟩
          cases htr : truthy (.list xs) with
          | false => simp [processDir, hc, htr] at h
          | true =>
            simp only [processDir, hc, htr, if_true] at h
            cases he : earthly_name d.earthfile with
            | none => rw [he] at h; cases h
            | some en =>
              rw [he] at h
              have h2 : (if en = "" then Except.ok none
                  else Except.error RunErr.attributeError) = Except.ok (some line) := h
              split at h2
              · cases h2
              · cases h2
        · rintro ⟨a, b, ha, hb, hne⟩
          simp [manifestDeclaredName, hc] at ha
      | table kvs =>
        constructor
        · rintro ⟨line, h⟩
          cases htr : truthy (.table kvs) with
          | false => simp [processDir, hc, htr] at h
          | true =>
            simp only [processDir, hc, htr, if_true] at h
            cases he : earthly_name d.earthfile with
            | none => rw [he] at h; cases h
            | some en =>
              rw [he] at h
              have h2 : (if en = "" then Except.ok none
                  else Except.error RunErr.attributeError) = Except.ok (some line) := h
              split at h2
              · cases h2
              · cases h2
        · rintro ⟨a, b, ha, hb, hne⟩
          simp [manifestDeclaredName, hc] at ha

end NameCheck
